import Mathlib

/-!
Shallow embedding of `generate_m3u.py`: a script that fetches three JSON
datasets (channels, streams, logos), joins them by channel id with
first-write-wins deduplication, and renders an extended-M3U playlist.

Conventions of the embedding:
* A JSON object field that may be absent (or JSON `null`) is an `Option`;
  Python truthiness on a string is `s ≠ ""` on present values and false on
  absent ones.
* The Python `dict` built with guarded insertion (`k not in map`) is
  modelled as an association list where `List.lookup` returns the first
  binding, which gives the same observable behaviour for every `.get`.
* `str.capitalize` is modelled on ASCII case mapping (`Char.toUpper`,
  `Char.toLower`); the inputs exercised here only need ASCII case folding,
  on which Python and this model agree.
-/

/-- A record of the channels dataset: `id`, `name` may be absent,
`categories` defaults to the empty list when absent (the code uses
`channel.get('categories', [])` and treats an empty and an absent list
identically). -/
structure Channel where
  id : Option String
  name : Option String
  categories : List String
deriving DecidableEq, Repr

/-- A record of the streams dataset (the logos dataset has the same shape):
both fields may be absent. -/
structure StreamEntry where
  channel : Option String
  url : Option String
deriving DecidableEq, Repr

/-- The joined record appended to `processed_channels`. The `id` is the
channel id that was found in the streams map, hence a plain string. -/
structure JoinedChannel where
  id : String
  name : String
  logo : String
  group : String
  url : String
deriving DecidableEq, Repr

/-- Python truthiness of `stream.get('channel')` / `stream.get('url')`:
false for an absent field or an empty string. -/
def pyTruthy : Option String → Bool
  | none => false
  | some s => !(s == "")

/-- The key-value pair a stream (or logo) entry contributes to its map:
`some (k, u)` exactly when both `channel` and `url` are present and
non-empty, mirroring `if channel_id and stream_url`. -/
def entryKV (e : StreamEntry) : Option (String × String) :=
  match e.channel, e.url with
  | some k, some u => if k = "" ∨ u = "" then none else some (k, u)
  | _, _ => none

/-- Embeds the loop building `streams_map` (and identically `logos_map`):
each qualifying entry is inserted only if its key is not present yet
(first-write-wins). The association list keeps every qualifying binding
and `List.lookup` returns the first, which is the binding the Python dict
stores. -/
def buildLookup : List StreamEntry → List (String × String)
  | [] => []
  | e :: rest =>
    match entryKV e with
    | some kv => kv :: buildLookup rest
    | none => buildLookup rest

/-- Python `str.capitalize()`: first character uppercased, every following
character lowercased (ASCII case mapping, see the header note). -/
def pyCapitalize (s : String) : String :=
  match s.data with
  | [] => ""
  | c :: cs => String.mk (c.toUpper :: cs.map Char.toLower)

/-- The body of the per-channel loop of `process_data`: `none` when the
channel is skipped (`if not stream_url: continue`), otherwise the joined
record. `streams_map.get(None)` yields `None` in Python, hence the outer
match on `c.id`. -/
def joinChannel (streams_map logos_map : List (String × String))
    (c : Channel) : Option JoinedChannel :=
  match c.id with
  | none => none
  | some k =>
    match streams_map.lookup k with
    | none => none
    | some u =>
      if u = "" then none
      else some
        { id := k
          name := c.name.getD "Nombre Desconocido"
          logo := (logos_map.lookup k).getD ""
          group := pyCapitalize (c.categories.headD "Sin Categoría")
          url := u }

/-- Embeds `process_data`: build the two lookup maps, then emit one joined
record per channel that resolves to a stream, in channel-list order. -/
def process_data (channels : List Channel) (streams logos : List StreamEntry) :
    List JoinedChannel :=
  channels.filterMap (joinChannel (buildLookup streams) (buildLookup logos))

/-- The `#EXTINF` metadata line, with field values spliced in verbatim
(no escaping), exactly as the f-string does. -/
def extinfLine (c : JoinedChannel) : String :=
  "#EXTINF:-1 tvg-id=\"" ++ c.id ++ "\" tvg-logo=\"" ++ c.logo ++
    "\" group-title=\"" ++ c.group ++ "\"," ++ c.name

/-- The two lines appended per channel: the metadata line, then the URL. -/
def channelLines (c : JoinedChannel) : List String :=
  [extinfLine c, c.url]

/-- Lexicographic comparison of strings by code point, as Python compares
strings, written as an executable Boolean on the character lists. It
agrees with Mathlib's linear order on `String`
(`charListLe_iff_le` below). -/
def charListLe : List Char → List Char → Bool
  | [], _ => true
  | _ :: _, [] => false
  | a :: as, b :: bs =>
    if a.toNat < b.toNat then true
    else if b.toNat < a.toNat then false
    else charListLe as bs

/-- Embeds `channels.sort(key=lambda x: x['name'])`: a stable sort by the
`name` field under lexicographic (code-point) string order — the result of
Python's stable Timsort by a key is exactly the result of stable insertion
sort by that key. -/
def sortByName (l : List JoinedChannel) : List JoinedChannel :=
  l.insertionSort (fun a b => charListLe a.name.data b.name.data)

/-- The list of lines `m3u_content` holds just before the final join. -/
def m3u_lines (channels : List JoinedChannel) : List String :=
  "#EXTM3U" :: (sortByName channels).flatMap channelLines

/-- Embeds `"\n".join(lines)`. -/
def joinLines : List String → String
  | [] => ""
  | [s] => s
  | s :: rest => s ++ "\n" ++ joinLines rest

/-- Embeds `generate_m3u_file`. -/
def generate_m3u_file (channels : List JoinedChannel) : String :=
  joinLines (m3u_lines channels)

/-- Splitting a text into its lines at newline characters, used to state
properties about the lines of the rendered text. -/
def charSplit : List Char → List (List Char)
  | [] => [[]]
  | c :: cs =>
    if c = '\n' then [] :: charSplit cs
    else
      match charSplit cs with
      | [] => [[c]]
      | h :: t => (c :: h) :: t

/-- The lines of a rendered string. -/
def splitLines (s : String) : List String :=
  (charSplit s.data).map String.mk

/-- Python truthiness of a fetch result holding a JSON array: false for
`None` (failed fetch) and for an empty list. -/
def listTruthy {α : Type} : Option (List α) → Bool
  | none => false
  | some l => !l.isEmpty

/-- The outcome of one run of `main` after the three fetch results are in
hand (the write step is modelled as succeeding; no claim concerns write
failure). -/
inductive MainOutcome
  | abortedFetch
  | abortedEmpty
  | wrote (content : String)
deriving DecidableEq, Repr

/-- Embeds the control flow of `main` after the three `fetch_json` calls:
`if not all([channels_data, streams_data, logos_data])` aborts, then an
empty `process_data` result aborts, otherwise the rendered text is
written. -/
def mainPipeline (channels_data : Option (List Channel))
    (streams_data logos_data : Option (List StreamEntry)) : MainOutcome :=
  if !(listTruthy channels_data && listTruthy streams_data &&
      listTruthy logos_data) then
    .abortedFetch
  else
    let processed := process_data (channels_data.getD [])
      (streams_data.getD []) (logos_data.getD [])
    if processed.isEmpty then .abortedEmpty
    else .wrote (generate_m3u_file processed)

/-- The possible outcomes of the body of `fetch_json`'s `try` block:
either a 2xx response with a well-formed JSON body, or one of the three
failure modes. All three failures raise a subclass of
`requests.RequestException` (the non-2xx case via `raise_for_status`, the
malformed-body case because `requests.exceptions.JSONDecodeError`
subclasses `RequestException` in the requests releases this script runs
against). -/
inductive RequestOutcome (α : Type)
  | success (v : α)
  | connectionError (msg : String)
  | httpStatusError (msg : String)
  | jsonDecodeError (msg : String)
deriving DecidableEq, Repr

/-- The exception kinds the `try` body of `fetch_json` can raise. -/
inductive PyExc
  | requestException (msg : String)
deriving DecidableEq, Repr

/-- The `try` body: `requests.get` + `raise_for_status` + `.json()`,
returning the parsed value or raising a `RequestException`. -/
def requestBody {α : Type} : RequestOutcome α → Except PyExc α
  | .success v => .ok v
  | .connectionError m => .error (.requestException m)
  | .httpStatusError m => .error (.requestException m)
  | .jsonDecodeError m => .error (.requestException m)

/-- Embeds `fetch_json`: the result is the returned value paired with the
lines printed by the handler; an uncaught exception would surface as
`Except.error`. The `except requests.RequestException` arm catches the
exception, prints the diagnostic naming the URL, and returns `None`. -/
def fetch_json {α : Type} (url : String) (o : RequestOutcome α) :
    Except PyExc (Option α × List String) :=
  match requestBody o with
  | .ok v => .ok (some v, [])
  | .error (.requestException m) =>
    .ok (none, ["Error descargando " ++ url ++ ": " ++ m])

/-- Capitalization rule as the specification words it for claim C1:
uppercase the first character and leave the remainder of the string
unchanged. Stated only to be compared against `pyCapitalize`, the rule
the code actually applies. -/
def specCapitalizeFirstOnly (s : String) : String :=
  match s.data with
  | [] => ""
  | c :: cs => String.mk (c.toUpper :: cs)

/-- Projection of a joined record onto every field except `logo`, used to
state that the logos input influences nothing but the `logo` field. -/
def visibleFields (r : JoinedChannel) : String × String × String × String :=
  (r.id, r.name, r.group, r.url)

/-- No field of the record contains a newline character. -/
def fieldsNoNewline (r : JoinedChannel) : Prop :=
  '\n' ∉ r.id.data ∧ '\n' ∉ r.name.data ∧ '\n' ∉ r.logo.data ∧
    '\n' ∉ r.group.data ∧ '\n' ∉ r.url.data

instance (r : JoinedChannel) : Decidable (fieldsNoNewline r) := by
  unfold fieldsNoNewline; infer_instance

/-- A streams input with an empty-url entry, two qualifying entries for the
same id and a keyless entry, exercising first-write-wins. -/
def demoStreams : List StreamEntry :=
  [⟨some "c", some ""⟩, ⟨some "c", some "u1"⟩, ⟨some "c", some "u2"⟩,
    ⟨none, some "x"⟩]

/-- Two joined records sharing the display name "A" but differing
elsewhere, and one with the distinct name "B". -/
def recAlphaFirst : JoinedChannel := ⟨"c1", "A", "", "G", "u1"⟩

def recAlphaSecond : JoinedChannel := ⟨"c2", "A", "", "G", "u2"⟩

def recBeta : JoinedChannel := ⟨"c3", "B", "", "G", "u3"⟩

/-- A joined record with newline-free fields, and one whose name embeds a
newline character. -/
def recPlain : JoinedChannel := ⟨"c4", "C", "", "G", "u4"⟩

def recNewline : JoinedChannel := ⟨"c9", "a\nb", "", "G", "u9"⟩

/-! Helper lemmas about the embedded operations. -/

/-- The executable code-point comparison agrees with Mathlib's
lexicographic order on `String`. -/
theorem charListLe_iff_le (s t : String) :
    charListLe s.data t.data = true ↔ s ≤ t := by
  rw [show (s ≤ t) = ¬ t < s from rfl, String.lt_iff_toList_lt]
  show charListLe s.data t.data = true ↔ ¬ List.Lex (· < ·) t.data s.data
  generalize s.data = x
  generalize t.data = y
  induction x generalizing y with
  | nil =>
    refine iff_of_true rfl (List.Lex.not_nil_right _ _)
  | cons a as ih =>
    cases y with
    | nil =>
      refine iff_of_false (by simp [charListLe]) (fun hn => hn List.Lex.nil)
    | cons b bs =>
      by_cases h1 : a.toNat < b.toNat
      · rw [show charListLe (a :: as) (b :: bs) = true from by
          simp [charListLe, h1]]
        refine iff_of_true rfl ?_
        intro hlex
        cases hlex with
        | cons h => exact absurd h1 (by omega)
        | rel h =>
          have hr : b.toNat < a.toNat := h
          omega
      · by_cases h2 : b.toNat < a.toNat
        · rw [show charListLe (a :: as) (b :: bs) = false from by
            simp [charListLe, h1, h2]]
          refine iff_of_false (by simp) ?_
          intro hn
          exact hn (List.Lex.rel (show b < a from h2))
        · have hab : a = b := by
            apply Char.ext
            apply UInt32.ext
            have h3 : ¬ a.val.toNat < b.val.toNat := h1
            have h4 : ¬ b.val.toNat < a.val.toNat := h2
            omega
          subst hab
          rw [show charListLe (a :: as) (a :: bs) = charListLe as bs from by
            simp [charListLe]]
          rw [ih bs]
          constructor
          · intro hn hlex
            cases hlex with
            | cons h => exact hn h
            | rel h =>
              have hr : a.toNat < a.toNat := h
              omega
          · intro hn hlex
            exact hn (List.Lex.cons hlex)

/-- The lookup maps never acquire the empty string as a key. -/
theorem buildLookup_no_empty_key (l : List StreamEntry) :
    (buildLookup l).lookup "" = none := by
  induction l with
  | nil => rfl
  | cons e rest ih =>
    rcases e with ⟨ch, u⟩
    match ch, u with
    | none, u => simpa [buildLookup, entryKV] using ih
    | some k2, none => simpa [buildLookup, entryKV] using ih
    | some k2, some u =>
      by_cases h2 : k2 = ""
      · subst h2; simpa [buildLookup, entryKV] using ih
      · by_cases hu : u = ""
        · subst hu; simpa [buildLookup, entryKV, h2] using ih
        · have hb : ("" == k2) = false := beq_false_of_ne (Ne.symm h2)
          simpa [buildLookup, entryKV, h2, hu, List.lookup, hb] using ih

/-- Every value stored in a lookup map is a non-empty string. -/
theorem buildLookup_value_nonempty (l : List StreamEntry) (k u : String)
    (h : (buildLookup l).lookup k = some u) : u ≠ "" := by
  induction l with
  | nil => simp [buildLookup] at h
  | cons e rest ih =>
    rcases e with ⟨ch, v⟩
    match ch, v with
    | none, v => simp [buildLookup, entryKV] at h; exact ih h
    | some k2, none => simp [buildLookup, entryKV] at h; exact ih h
    | some k2, some v =>
      by_cases h2 : k2 = ""
      · subst h2; simp [buildLookup, entryKV] at h; exact ih h
      · by_cases hv : v = ""
        · subst hv; simp [buildLookup, entryKV, h2] at h; exact ih h
        · simp only [buildLookup, entryKV] at h
          rw [if_neg (by simp [h2, hv])] at h
          by_cases hk : k = k2
          · subst hk
            simp [List.lookup] at h
            exact h ▸ hv
          · have hb : (k == k2) = false := beq_false_of_ne hk
            simp [List.lookup, hb] at h
            exact ih h

/-- Filtering with an option-valued function keeps exactly the entries on
which it fires. -/
theorem length_filterMap_eq_countP {α β : Type} (f : α → Option β) (l : List α) :
    (l.filterMap f).length = l.countP (fun a => (f a).isSome) := by
  induction l with
  | nil => rfl
  | cons a rest ih =>
    cases h : f a <;> simp [List.filterMap_cons, h, List.countP_cons, ih]

/-- The per-channel join is insensitive to the logos map on every field
except `logo`. -/
theorem joinChannel_visible (sm lm1 lm2 : List (String × String)) (c : Channel) :
    (joinChannel sm lm1 c).map visibleFields = (joinChannel sm lm2 c).map visibleFields := by
  cases hid : c.id with
  | none => simp [joinChannel, hid]
  | some k =>
    cases hlk : sm.lookup k with
    | none => simp [joinChannel, hid, hlk]
    | some u =>
      by_cases hu : u = "" <;> simp [joinChannel, hid, hlk, hu, visibleFields]

/-- Rebuilding a string from its character list is the identity. -/
theorem string_mk_data (s : String) : String.mk s.data = s := rfl

/-- A newline-free character list is a single line. -/
theorem charSplit_no_newline (l : List Char) (h : '\n' ∉ l) : charSplit l = [l] := by
  induction l with
  | nil => rfl
  | cons c cs ih =>
    have hc : c ≠ '\n' := fun hcc => h (hcc ▸ List.mem_cons_self c cs)
    have hcs : '\n' ∉ cs := fun hm => h (List.mem_cons_of_mem c hm)
    simp [charSplit, hc, ih hcs]

/-- Splitting after a newline-free chunk peels it off as one line. -/
theorem charSplit_append (l1 l2 : List Char) (h : '\n' ∉ l1) :
    charSplit (l1 ++ '\n' :: l2) = l1 :: charSplit l2 := by
  induction l1 with
  | nil => simp [charSplit]
  | cons c cs ih =>
    have hc : c ≠ '\n' := fun hcc => h (hcc ▸ List.mem_cons_self c cs)
    have hcs : '\n' ∉ cs := fun hm => h (List.mem_cons_of_mem c hm)
    rw [List.cons_append, charSplit]
    rw [if_neg hc, ih hcs]

/-- Unfolding equation of `joinLines` on a list of at least two lines. -/
theorem joinLines_cons (s : String) (rest : List String) (h : rest ≠ []) :
    joinLines (s :: rest) = s ++ "\n" ++ joinLines rest := by
  cases rest with
  | nil => exact absurd rfl h
  | cons t ts => rfl

/-- Splitting the joined text recovers the original lines, provided no
line contains a newline itself. -/
theorem splitLines_joinLines (parts : List String) (hne : parts ≠ [])
    (h : ∀ p ∈ parts, '\n' ∉ p.data) :
    splitLines (joinLines parts) = parts := by
  induction parts with
  | nil => exact absurd rfl hne
  | cons s rest ih =>
    cases rest with
    | nil =>
      have hs : '\n' ∉ s.data := h s (List.mem_cons_self s [])
      simp [splitLines, joinLines, charSplit_no_newline s.data hs, string_mk_data]
    | cons t ts =>
      have hs : '\n' ∉ s.data := h s (List.mem_cons_self s _)
      have hrest : ∀ p ∈ t :: ts, '\n' ∉ p.data :=
        fun p hp => h p (List.mem_cons_of_mem s hp)
      rw [joinLines_cons s (t :: ts) (by simp)]
      unfold splitLines
      have hdata : (s ++ "\n" ++ joinLines (t :: ts)).data =
          s.data ++ '\n' :: (joinLines (t :: ts)).data := by
        rw [String.data_append, String.data_append, List.append_assoc]
        rfl
      rw [hdata, charSplit_append s.data _ hs]
      simp only [List.map_cons, string_mk_data]
      have := ih (by simp) hrest
      unfold splitLines at this
      rw [this]

/-- Concatenation of newline-free strings is newline-free. -/
theorem no_newline_append (a b : String) (ha : '\n' ∉ a.data) (hb : '\n' ∉ b.data) :
    '\n' ∉ (a ++ b).data := by
  rw [String.data_append]
  intro h
  rcases List.mem_append.mp h with h | h
  · exact ha h
  · exact hb h

/-- The metadata line of a record with newline-free fields is
newline-free. -/
theorem extinfLine_no_newline (r : JoinedChannel) (h : fieldsNoNewline r) :
    '\n' ∉ (extinfLine r).data := by
  obtain ⟨h1, h2, h3, h4, h5⟩ := h
  unfold extinfLine
  refine no_newline_append _ _ (no_newline_append _ _ (no_newline_append _ _
    (no_newline_append _ _ (no_newline_append _ _ (no_newline_append _ _
      (no_newline_append _ _ (by decide) h1) (by decide)) h3) (by decide)) h4)
    (by decide)) h2

/-- Each record contributes exactly two lines. -/
theorem flatMap_channelLines_length (l : List JoinedChannel) :
    (l.flatMap channelLines).length = 2 * l.length := by
  induction l with
  | nil => rfl
  | cons r rest ih =>
    simp [List.flatMap_cons, channelLines, ih]
    omega

/-! Claim theorems. -/

/-- C1 (amended): for every emitted record, `group` equals Python
`str.capitalize` applied to the first category (or the fallback label
"Sin Categoría" when there is none): the first character is uppercased and
every later character is lowercased, so the fallback renders as
"Sin categoría". The claim's uppercase-first-leave-rest-unchanged rule
does not hold (see `group_capitalize_counterexample`). -/
theorem group_capitalization (sm lm : List (String × String)) (c : Channel)
    (r : JoinedChannel) (h : joinChannel sm lm c = some r) :
    r.group = pyCapitalize (c.categories.headD "Sin Categoría") := by
  cases hid : c.id with
  | none => simp [joinChannel, hid] at h
  | some k =>
    cases hlk : sm.lookup k with
    | none => simp [joinChannel, hid, hlk] at h
    | some u =>
      by_cases hu : u = ""
      · simp [joinChannel, hid, hlk, hu] at h
      · simp [joinChannel, hid, hlk, hu] at h
        rw [← h]
        simp [List.headD_eq_head?]

/-- C1 witness: a concrete channel with category "tv" joins to a record
whose group is `pyCapitalize "tv"`. -/
theorem group_capitalization_witness :
    (JoinedChannel.group ⟨"c1", "A", "", "Tv", "u"⟩) =
      pyCapitalize (List.headD ["tv"] "Sin Categoría") :=
  group_capitalization [("c1", "u")] [] ⟨some "c1", some "A", ["tv"]⟩
    ⟨"c1", "A", "", "Tv", "u"⟩ rfl

/-- C1 counterexample: a channel with category "NEWS" is emitted with
group "News" (the tail is lowercased), not "NEWS" as the claim's
first-letter-only rule demands, and the fallback label is emitted as
"Sin categoría", not "Sin Categoría". -/
theorem group_capitalize_counterexample :
    (process_data [⟨some "c1", some "A", ["NEWS"]⟩, ⟨some "c2", some "B", []⟩]
        [⟨some "c1", some "http://u"⟩, ⟨some "c2", some "http://v"⟩] []).map
      JoinedChannel.group = ["News", "Sin categoría"] ∧
    specCapitalizeFirstOnly "NEWS" = "NEWS" ∧
    ("News" : String) ≠ "NEWS" ∧
    ("Sin categoría" : String) ≠ "Sin Categoría" := by
  refine ⟨rfl, rfl, by decide, by decide⟩

/-- C2: for every non-empty channel id `k`, the lookup map built from a
streams (or, identically, logos) input associates `k` with the `url` of
the first entry in input order whose `channel` equals `k` and whose `url`
is present and non-empty; later entries with the same `channel` are
ignored. -/
theorem buildLookup_first_write_wins (l : List StreamEntry) (k : String) (hk : k ≠ "") :
    (buildLookup l).lookup k =
      (l.find? (fun e => e.channel == some k && pyTruthy e.url)).bind StreamEntry.url := by
  induction l with
  | nil => rfl
  | cons e rest ih =>
    rcases e with ⟨ch, u⟩
    match ch, u with
    | none, u =>
      simp [buildLookup, entryKV, List.find?, ih]
    | some k2, none =>
      simp [buildLookup, entryKV, List.find?, pyTruthy, ih]
    | some k2, some u =>
      by_cases h2 : k2 = ""
      · subst h2
        have hb : ("" == k) = false := beq_false_of_ne (Ne.symm hk)
        simp [buildLookup, entryKV, List.find?, pyTruthy, ih, hb]
      · by_cases hu : u = ""
        · subst hu
          simp [buildLookup, entryKV, List.find?, pyTruthy, ih, h2]
        · have hbu : (u == "") = false := beq_false_of_ne hu
          by_cases hkk : k2 = k
          · subst hkk
            simp [buildLookup, entryKV, List.find?, pyTruthy, h2, hu, hbu, List.lookup]
          · have hb1 : (k == k2) = false := beq_false_of_ne (Ne.symm hkk)
            have hb2 : (k2 == k) = false := beq_false_of_ne hkk
            simp [buildLookup, entryKV, List.find?, pyTruthy, ih, h2, hu, hbu, hb1, hb2,
              List.lookup]

/-- C2 witness: on a streams list with an empty-url entry first and two
qualifying entries for id "c", the lookup returns the first qualifying
url "u1". -/
theorem buildLookup_first_write_wins_witness :
    (buildLookup demoStreams).lookup "c" =
      (demoStreams.find? (fun e => e.channel == some "c" && pyTruthy e.url)).bind
        StreamEntry.url ∧
    (buildLookup demoStreams).lookup "c" = some "u1" :=
  ⟨buildLookup_first_write_wins demoStreams "c" (by decide), rfl⟩

/-- C3 (amended): a channel produces a joined record exactly when its `id`
field is present and is a key of the stream lookup, and the number of
emitted records equals the number of channel-list entries — counted with
multiplicity — whose id is such a key. The claim's count over distinct
ids fails when the channel list repeats an id
(see `join_count_counterexample`). -/
theorem join_membership_and_count (cs : List Channel) (ss ls : List StreamEntry) :
    (process_data cs ss ls).length =
      cs.countP (fun c =>
        (joinChannel (buildLookup ss) (buildLookup ls) c).isSome) ∧
    ∀ c, (joinChannel (buildLookup ss) (buildLookup ls) c).isSome = true ↔
      ∃ k, c.id = some k ∧ ((buildLookup ss).lookup k).isSome = true := by
  constructor
  · exact length_filterMap_eq_countP _ cs
  · intro c
    cases hid : c.id with
    | none =>
      constructor
      · intro hjs; simp [joinChannel, hid] at hjs
      · rintro ⟨k2, hk2, hs⟩
        exact absurd hk2 (by simp)
    | some k =>
      cases hlk : (buildLookup ss).lookup k with
      | none =>
        constructor
        · intro hjs; simp [joinChannel, hid, hlk] at hjs
        · rintro ⟨k2, hk2, hs⟩
          injection hk2 with hkk
          subst hkk
          rw [hlk] at hs
          exact absurd hs (by simp)
      | some u =>
        have hu : u ≠ "" := buildLookup_value_nonempty ss k u hlk
        constructor
        · intro hjs
          exact ⟨k, rfl, by rw [hlk]; rfl⟩
        · intro hs
          simp [joinChannel, hid, hlk, hu]

/-- C3 counterexample: a channel list repeating id "c1" yields two
rendered entries while only one distinct channel id is a key of the
stream lookup. -/
theorem join_count_counterexample :
    (process_data [⟨some "c1", some "A", []⟩, ⟨some "c1", some "A", []⟩]
      [⟨some "c1", some "u"⟩] []).length = 2 ∧
    (((([⟨some "c1", some "A", []⟩, ⟨some "c1", some "A", []⟩] :
          List Channel).filterMap Channel.id).dedup).filter
      (fun k => ((buildLookup [⟨some "c1", some "u"⟩]).lookup k).isSome)).length = 1 ∧
    (2 : Nat) ≠ 1 := by
  refine ⟨rfl, by decide, by decide⟩

/-- C4 (amended): the emitted `name` is the channel's name field whenever
the field is present — including when it is the empty string — and the
placeholder "Nombre Desconocido" only when the field is absent. The
claim's placeholder-on-empty-string behaviour does not hold
(see `name_empty_counterexample`). -/
theorem name_fallback_only_when_absent (sm lm : List (String × String)) (c : Channel)
    (r : JoinedChannel) (h : joinChannel sm lm c = some r) :
    r.name = c.name.getD "Nombre Desconocido" := by
  cases hid : c.id with
  | none => simp [joinChannel, hid] at h
  | some k =>
    cases hlk : sm.lookup k with
    | none => simp [joinChannel, hid, hlk] at h
    | some u =>
      by_cases hu : u = ""
      · simp [joinChannel, hid, hlk, hu] at h
      · simp [joinChannel, hid, hlk, hu] at h
        rw [← h]

/-- C4 witness: a channel whose name field is present but empty joins to a
record whose name is the empty string. -/
theorem name_fallback_only_when_absent_witness :
    (JoinedChannel.name ⟨"c1", "", "", "Sin categoría", "u"⟩) =
      (Option.getD (some "") "Nombre Desconocido") :=
  name_fallback_only_when_absent [("c1", "u")] [] ⟨some "c1", some "", []⟩
    ⟨"c1", "", "", "Sin categoría", "u"⟩ rfl

/-- C4 counterexample: a channel with `name` present as the empty string is
emitted with name "", not the placeholder the claim requires for empty
names. -/
theorem name_empty_counterexample :
    (process_data [⟨some "c1", some "", []⟩] [⟨some "c1", some "u"⟩] []).map
      JoinedChannel.name = [""] ∧
    ("" : String) ≠ "Nombre Desconocido" :=
  ⟨rfl, by decide⟩

/-- C5 (amended): render always — for every input — emits the records
sorted by `name` ascending under the lexicographic string order, and
render produces the same output on any permutation of its input provided
the names are pairwise distinct. With duplicate names the stable sort
preserves input order among equals, so permutation invariance fails
(see `render_perm_counterexample`). -/
theorem render_sorted_and_perm_invariant (l l2 : List JoinedChannel) :
    (sortByName l).Pairwise (fun a b => a.name ≤ b.name) ∧
    (l.Perm l2 → (l.map JoinedChannel.name).Nodup →
      generate_m3u_file l = generate_m3u_file l2) := by
  haveI ht : IsTotal JoinedChannel
      (fun a b => charListLe a.name.data b.name.data = true) := by
    constructor
    intro a b
    rcases le_total a.name b.name with h | h
    · exact Or.inl ((charListLe_iff_le _ _).mpr h)
    · exact Or.inr ((charListLe_iff_le _ _).mpr h)
  haveI htr : IsTrans JoinedChannel
      (fun a b => charListLe a.name.data b.name.data = true) := by
    constructor
    intro a b c h1 h2
    exact (charListLe_iff_le _ _).mpr
      (le_trans ((charListLe_iff_le _ _).mp h1) ((charListLe_iff_le _ _).mp h2))
  have hs1' : (sortByName l).Pairwise
      (fun a b => charListLe a.name.data b.name.data = true) :=
    List.sorted_insertionSort _ l
  have hs2' : (sortByName l2).Pairwise
      (fun a b => charListLe a.name.data b.name.data = true) :=
    List.sorted_insertionSort _ l2
  have hs1 : (sortByName l).Pairwise (fun a b => a.name ≤ b.name) :=
    hs1'.imp (fun h => (charListLe_iff_le _ _).mp h)
  have hs2 : (sortByName l2).Pairwise (fun a b => a.name ≤ b.name) :=
    hs2'.imp (fun h => (charListLe_iff_le _ _).mp h)
  refine ⟨hs1, ?_⟩
  intro hp hnd
  have hperm1 : (sortByName l).Perm l := List.perm_insertionSort _ l
  have hperm2 : (sortByName l2).Perm l2 := List.perm_insertionSort _ l2
  have hnd1 : ((sortByName l).map JoinedChannel.name).Nodup :=
    (hperm1.map JoinedChannel.name).nodup_iff.mpr hnd
  have hnd2 : ((sortByName l2).map JoinedChannel.name).Nodup :=
    ((hperm2.map JoinedChannel.name).nodup_iff).mpr
      ((hp.map JoinedChannel.name).nodup_iff.mp hnd)
  have hlt1 : (sortByName l).Pairwise (fun a b => a.name < b.name) := by
    have hne : (sortByName l).Pairwise (fun a b => a.name ≠ b.name) :=
      (List.pairwise_map).mp hnd1
    exact (hs1.and hne).imp (fun h => lt_of_le_of_ne h.1 h.2)
  have hlt2 : (sortByName l2).Pairwise (fun a b => a.name < b.name) := by
    have hne : (sortByName l2).Pairwise (fun a b => a.name ≠ b.name) :=
      (List.pairwise_map).mp hnd2
    exact (hs2.and hne).imp (fun h => lt_of_le_of_ne h.1 h.2)
  haveI : IsAntisymm JoinedChannel (fun a b => a.name < b.name) :=
    ⟨fun a b h1 h2 => absurd (lt_trans h1 h2) (lt_irrefl _)⟩
  have hperm : (sortByName l).Perm (sortByName l2) :=
    (hperm1.trans hp).trans hperm2.symm
  have heq : sortByName l = sortByName l2 :=
    List.eq_of_perm_of_sorted hperm hlt1 hlt2
  unfold generate_m3u_file m3u_lines
  rw [heq]

/-- C5 witness: two records with the distinct names "B" and "A" render to
the same sorted output from either input order. -/
theorem render_perm_witness :
    (sortByName [recBeta, recAlphaFirst]).Pairwise (fun a b => a.name ≤ b.name) ∧
    generate_m3u_file [recBeta, recAlphaFirst] =
      generate_m3u_file [recAlphaFirst, recBeta] :=
  ⟨(render_sorted_and_perm_invariant [recBeta, recAlphaFirst] [recAlphaFirst, recBeta]).1,
   (render_sorted_and_perm_invariant [recBeta, recAlphaFirst] [recAlphaFirst, recBeta]).2
     (List.Perm.swap recAlphaFirst recBeta []) (by decide)⟩

/-- C5 counterexample: two records sharing the name "A" but with different
urls render differently from the two input orders, refuting permutation
invariance as claimed. -/
theorem render_perm_counterexample :
    ([recAlphaFirst, recAlphaSecond] : List JoinedChannel).Perm
      [recAlphaSecond, recAlphaFirst] ∧
    generate_m3u_file [recAlphaFirst, recAlphaSecond] ≠
      generate_m3u_file [recAlphaSecond, recAlphaFirst] := by
  constructor
  · exact List.Perm.swap recAlphaSecond recAlphaFirst []
  · decide

/-- C6 (amended): after the three fetches the orchestrator aborts before
joining exactly when at least one fetch result is missing (`None`) or is
an empty collection; `if not all([...])` treats a successfully fetched
empty list like a failure, so the claimed "abort iff a fetch failed" does
not hold (see `fetch_success_but_aborted_counterexample`). -/
theorem mainPipeline_abort_iff (channels_data : Option (List Channel))
    (streams_data logos_data : Option (List StreamEntry)) :
    mainPipeline channels_data streams_data logos_data = .abortedFetch ↔
      (channels_data = none ∨ channels_data = some [] ∨
       streams_data = none ∨ streams_data = some [] ∨
       logos_data = none ∨ logos_data = some []) := by
  cases channels_data with
  | none => simp [mainPipeline, listTruthy]
  | some cl =>
    cases streams_data with
    | none => simp [mainPipeline, listTruthy]
    | some sl =>
      cases logos_data with
      | none => simp [mainPipeline, listTruthy]
      | some ll =>
        cases cl <;> cases sl <;> cases ll <;>
          (simp [mainPipeline, listTruthy]
           try (split <;> simp_all))

/-- C6 counterexample: all three fetches succeed (all results present) but
the channels document is the empty array, and the run still aborts at the
fetch check. -/
theorem fetch_success_but_aborted_counterexample :
    (some ([] : List Channel)).isSome = true ∧
    (some [(⟨some "c", some "u"⟩ : StreamEntry)]).isSome = true ∧
    (some ([(⟨some "c", some "l"⟩ : StreamEntry)])).isSome = true ∧
    mainPipeline (some []) (some [⟨some "c", some "u"⟩]) (some [⟨some "c", some "l"⟩]) =
      .abortedFetch :=
  ⟨rfl, rfl, rfl, rfl⟩

/-- C7: for every url and every outcome of the request pipeline,
`fetch_json` never lets an exception escape: it returns the parsed value
on success, and on a network error, non-2xx status or malformed body it
returns `None` after printing a diagnostic that names the failing url. -/
theorem fetch_json_no_uncaught {α : Type} (url : String) (o : RequestOutcome α) :
    (∀ e, fetch_json url o ≠ .error e) ∧
    (∀ v, o = .success v → fetch_json url o = .ok (some v, [])) ∧
    (∀ m, (o = .connectionError m ∨ o = .httpStatusError m ∨ o = .jsonDecodeError m) →
      fetch_json url o = .ok (none, ["Error descargando " ++ url ++ ": " ++ m])) := by
  cases o <;> simp [fetch_json, requestBody]

/-- C7 witness: a timeout while fetching a concrete url returns `None`
with the diagnostic line naming that url. -/
theorem fetch_json_no_uncaught_witness :
    fetch_json "http://x" (RequestOutcome.connectionError (α := Nat) "timeout") =
      .ok (none, ["Error descargando http://x: timeout"]) := by
  have h := (fetch_json_no_uncaught "http://x"
    (RequestOutcome.connectionError (α := Nat) "timeout")).2.2 "timeout" (Or.inl rfl)
  exact h

/-- C8 (amended): when no field of any record contains a newline, the
rendered text splits into the header line "#EXTM3U" followed by, per
sorted record, its `#EXTINF` metadata line immediately followed by its
stream url line — hence 2·n non-header lines. A newline embedded in a
field breaks the 2·n line count (see `render_newline_counterexample`). -/
theorem render_line_structure (l : List JoinedChannel)
    (h : ∀ r ∈ l, fieldsNoNewline r) :
    splitLines (generate_m3u_file l) =
      "#EXTM3U" :: (sortByName l).flatMap channelLines ∧
    ((sortByName l).flatMap channelLines).length = 2 * l.length := by
  have hsorted : ∀ r ∈ sortByName l, fieldsNoNewline r := by
    intro r hr
    exact h r ((List.perm_insertionSort _ l).mem_iff.mp hr)
  have hlines : ∀ p ∈ m3u_lines l, '\n' ∉ p.data := by
    intro p hp
    rcases List.mem_cons.mp hp with hp | hp
    · subst hp; decide
    · rcases List.mem_flatMap.mp hp with ⟨r, hr, hpr⟩
      have hf := hsorted r hr
      rcases List.mem_cons.mp hpr with hpr | hpr
      · subst hpr; exact extinfLine_no_newline r hf
      · rcases List.mem_cons.mp hpr with hpr | hpr
        · subst hpr; exact hf.2.2.2.2
        · simp at hpr
  constructor
  · unfold generate_m3u_file
    rw [splitLines_joinLines (m3u_lines l) (by simp [m3u_lines]) hlines]
    rfl
  · rw [flatMap_channelLines_length (sortByName l)]
    rw [show (sortByName l).length = l.length from
      (List.perm_insertionSort _ l).length_eq]

/-- C8 witness: a single newline-free record renders as the header plus
its two lines. -/
theorem render_line_structure_witness :
    splitLines (generate_m3u_file [recPlain]) =
      "#EXTM3U" :: (sortByName [recPlain]).flatMap channelLines ∧
    ((sortByName [recPlain]).flatMap channelLines).length = 2 * 1 :=
  render_line_structure [recPlain] (by decide)

/-- C8 counterexample: a record whose name embeds a newline renders to
four physical lines instead of the claimed 1 + 2·1. -/
theorem render_newline_counterexample :
    (splitLines (generate_m3u_file [recNewline])).length = 4 ∧
    ¬((splitLines (generate_m3u_file [recNewline])).length =
        1 + 2 * ([recNewline] : List JoinedChannel).length) := by
  refine ⟨by decide, by decide⟩

/-- C9: with the channels and streams inputs fixed, changing the logos
input changes at most the `logo` field of each joined record: every other
field, the set of emitted records and their order are identical. -/
theorem logos_noninterference (cs : List Channel) (ss ls1 ls2 : List StreamEntry) :
    (process_data cs ss ls1).map visibleFields =
      (process_data cs ss ls2).map visibleFields := by
  unfold process_data
  induction cs with
  | nil => rfl
  | cons c rest ih =>
    have h := joinChannel_visible (buildLookup ss) (buildLookup ls1) (buildLookup ls2) c
    cases h1 : joinChannel (buildLookup ss) (buildLookup ls1) c <;>
      cases h2 : joinChannel (buildLookup ss) (buildLookup ls2) c <;>
      rw [h1, h2] at h <;>
      simp at h <;>
      simp [List.filterMap_cons, h1, h2, h, ih]

/-- C10: a channel whose id is absent or empty never yields a joined
record, whatever the streams and logos inputs, because the stream lookup
never holds an absent or empty key. -/
theorem empty_id_never_joined (ss ls : List StreamEntry) (c : Channel)
    (h : c.id = none ∨ c.id = some "") :
    joinChannel (buildLookup ss) (buildLookup ls) c = none ∧
    (buildLookup ss).lookup "" = none := by
  refine ⟨?_, buildLookup_no_empty_key ss⟩
  rcases h with h | h <;> simp [joinChannel, h, buildLookup_no_empty_key]

/-- C10 witness: a channel with the empty id joins to nothing even though a
stream entry carries the empty channel id. -/
theorem empty_id_never_joined_witness :
    joinChannel (buildLookup [⟨some "", some "u"⟩]) (buildLookup [])
      ⟨some "", some "X", []⟩ = none ∧
    (buildLookup [⟨some "", some "u"⟩]).lookup "" = none :=
  empty_id_never_joined [⟨some "", some "u"⟩] [] ⟨some "", some "X", []⟩ (Or.inr rfl)
